import Mathlib

/-
  Formal model of the position generator in `src/main.py`
  (algothon25 starter code, advanced mean-reversion strategy).

  Prices are modelled as real numbers; a price matrix is a list of rows
  (one row per instrument), each row a chronological list of prices.
  Python `int(...)` truncation, numpy `mean`/`std`/`diff`/`clip` and the
  negative-index slices used by the source are given explicit models.
-/

noncomputable section

open List

/-- Python `int(x)`: truncation toward zero. -/
def pyInt (x : ℝ) : ℤ := if 0 ≤ x then ⌊x⌋ else ⌈x⌉

/-- Model of `np.mean` (sum divided by length; Lean's junk value 0 on `[]`). -/
def npMean (l : List ℝ) : ℝ := l.sum / l.length

/-- Model of `np.diff`: consecutive differences `l[i+1] - l[i]`. -/
def npDiff (l : List ℝ) : List ℝ := List.zipWith (fun a b => b - a) l l.tail

/-- Model of `np.std` (population standard deviation, `ddof = 0`). -/
def npStd (l : List ℝ) : ℝ :=
  Real.sqrt (npMean (l.map (fun x => (x - npMean l) ^ 2)))

/-- Python slice `l[-k:]` for `k ≥ 1` (the last `k` elements, clamped). -/
def lastSlice (l : List α) (k : ℕ) : List α := l.drop (l.length - k)

/-- Python slice `l[-p:]` as used on the gain/loss arrays: for `p = 0` this
is `l[0:]`, i.e. the whole list, otherwise the last `p` elements. -/
def pySliceLast (l : List α) (p : ℕ) : List α :=
  if p = 0 then l else l.drop (l.length - p)

/-- Model of `np.clip x lo hi = min hi (max x lo)`. -/
def clipZ (x lo hi : ℤ) : ℤ := min hi (max x lo)

/-- Function `calculate_rsi` from `src/main.py` (lines 26-43). -/
def calculate_rsi (prices : List ℝ) (period : ℕ) : ℝ :=
  if prices.length < period + 1 then 50
  else
    let deltas := npDiff prices
    let gains := deltas.map (fun d => if 0 < d then d else 0)
    let losses := deltas.map (fun d => if d < 0 then -d else 0)
    let avg_gain := if period ≤ gains.length then npMean (pySliceLast gains period) else 0
    let avg_loss := if period ≤ losses.length then npMean (pySliceLast losses period) else 0
    if avg_loss = 0 then 100
    else 100 - 100 / (1 + avg_gain / avg_loss)

/-- Function `identify_trend` from `src/main.py` (lines 45-58). -/
def identify_trend (prices : List ℝ) (short_period long_period : ℕ) : ℤ :=
  if prices.length < long_period then 0
  else
    let short_ma := npMean (lastSlice prices short_period)
    let long_ma := npMean (lastSlice prices long_period)
    if short_ma > long_ma * 1.02 then 1
    else if short_ma < long_ma * 0.98 then -1
    else 0

/-- The log returns `np.log(price_history[-20:] / price_history[-21:-1])`
of `src/main.py` line 97. -/
def logReturns (row : List ℝ) : List ℝ :=
  List.zipWith (fun a b => Real.log (a / b)) (lastSlice row 20) (lastSlice row 21).dropLast

/-- The volatility of `src/main.py` lines 96-100: population standard
deviation of the last 20 log returns when `nt ≥ LOOKBACK_DAYS + 1 = 21`,
else the fixed fallback `0.02`. -/
def volatilityOf (nt : ℕ) (row : List ℝ) : ℝ :=
  if 21 ≤ nt then npStd (logReturns row) else 0.02

/-- Per-instrument position limit, `src/main.py` line 71:
`int(10000 / max(price, MIN_PRICE))` with `MIN_PRICE = 10.0`. -/
def posLimit (price : ℝ) : ℤ := pyInt (10000 / max price 10)

/-- The body of the per-instrument loop of `getMyPosition`
(`src/main.py` lines 76-153) for one instrument: given the instrument's
price row, the day count `nt`, the previous position `cur` and the stored
entry day `entry`, it returns the new position and the new entry day. -/
def stepInstr (row : List ℝ) (nt : ℕ) (cur entry : ℤ) : ℤ × ℤ :=
  let price := row.getD (row.length - 1) 0
  if price < 10 then (0, -1)
  else if identify_trend row 20 100 = 0 then (pyInt ((cur : ℝ) * 0.5), entry)
  else
    let volatility := volatilityOf nt row
    if volatility > 0.012 then (pyInt ((cur : ℝ) * 0.7), entry)
    else
      let mean_returns := if 21 ≤ nt then npMean (logReturns row) else 0
      let current_return := Real.log (price / row.getD (row.length - 2) 0)
      let z_score := if volatility > 0 then (current_return - mean_returns) / volatility else 0
      let rsi := if 10 ≤ row.length then calculate_rsi (lastSlice row 10) 2 else 50
      if 0 ≤ entry ∧ 5 ≤ (nt : ℤ) - entry then (0, -1)
      else
        let limit := posLimit price
        let res : ℤ × ℤ :=
          if identify_trend row 20 100 = 1 then
            if z_score < -2.5 ∧ rsi < 20 ∧ cur = 0 then
              (pyInt (0.4 * (limit : ℝ) * min 1 (|z_score| / 4)), (nt : ℤ))
            else if 0 < cur ∧ (z_score > -0.8 ∨ rsi > 70) then (0, -1)
            else (cur, entry)
          else if identify_trend row 20 100 = -1 then
            if z_score > 2.5 ∧ rsi > 80 ∧ cur = 0 then
              (-pyInt (0.4 * (limit : ℝ) * min 1 (|z_score| / 4)), (nt : ℤ))
            else if cur < 0 ∧ (z_score < 0.8 ∨ rsi < 30) then (0, -1)
            else (cur, entry)
          else (0, entry)
        (clipZ res.1 (-limit) limit, res.2)

/-- The persistent cross-call state of `src/main.py`:
`currentPos` (line 8), `position_entry_day` (line 23) and
`global_day_counter` (line 24). -/
structure TraderState where
  currentPos : List ℤ
  position_entry_day : ℕ → ℤ
  global_day_counter : ℕ

/-- The state at process start: `np.zeros(50)`, `np.full(50, -1)`, `0`. -/
def initState : TraderState :=
  ⟨List.replicate 50 0, fun _ => -1, 0⟩

/-- Number of days (columns) of a price matrix, `prcSoFar.shape[1]`. -/
def ntOf (prc : List (List ℝ)) : ℕ := (prc.headD []).length

/-- Function `getMyPosition` from `src/main.py` (lines 60-158) as a state-passing
function: it returns the updated global state together with the returned
position vector. -/
def getMyPosition (st : TraderState) (prc : List (List ℝ)) : TraderState × List ℤ :=
  let nins := prc.length
  let nt := ntOf prc
  if nt < 110 then
    ({ st with global_day_counter := nt }, List.replicate nins 0)
  else
    let out := (List.range nins).map (fun i =>
      (stepInstr (prc.getD i []) nt (st.currentPos.getD i 0) (st.position_entry_day i)).1)
    let newEntry := fun j =>
      if j < nins then
        (stepInstr (prc.getD j []) nt (st.currentPos.getD j 0) (st.position_entry_day j)).2
      else st.position_entry_day j
    (⟨out, newEntry, nt⟩, out)

/-- A sequence of calls to `getMyPosition` starting from the process-start
state, returning the state after all calls. -/
def runPrefix (ms : List (List (List ℝ))) : TraderState :=
  ms.foldl (fun st m => (getMyPosition st m).1) initState

/- ------------------------------------------------------------------ -/
/- Helper lemmas about the Python/numpy primitives.                    -/
/- ------------------------------------------------------------------ -/

lemma getD_replicate_of_lt {α} (a d : α) {i n : ℕ} (h : i < n) :
    (List.replicate n a).getD i d = a := by
  simp [List.getD, h]

lemma getD_replicate_zero (n i : ℕ) : (List.replicate n (0 : ℤ)).getD i 0 = 0 := by
  rcases lt_or_le i n with h | h
  · exact getD_replicate_of_lt _ _ h
  · have hlen : (List.replicate n (0 : ℤ)).length ≤ i := by simpa using h
    simp [List.getD, List.getElem?_eq_none hlen]

lemma getD_map_range (f : ℕ → ℤ) (n i : ℕ) (d : ℤ) :
    ((List.range n).map f).getD i d = if i < n then f i else d := by
  rcases lt_or_le i n with h | h
  · simp [List.getD, List.getElem?_map, List.getElem?_range h, h]
  · have hlen : ((List.range n).map f).length ≤ i := by simpa using h
    simp [List.getD, List.getElem?_eq_none hlen, not_lt.mpr h]

lemma drop_append_ge {α} (l₁ l₂ : List α) (n : ℕ) (h : l₁.length ≤ n) :
    (l₁ ++ l₂).drop n = l₂.drop (n - l₁.length) := by
  obtain ⟨k, rfl⟩ : ∃ k, n = l₁.length + k := ⟨n - l₁.length, by omega⟩
  rw [List.drop_append]
  congr 1
  omega

lemma sum_replicate_real (n : ℕ) (a : ℝ) : (List.replicate n a).sum = n * a := by
  rw [List.sum_replicate, nsmul_eq_mul]

lemma zipWith_replicate_both (f : ℝ → ℝ → ℝ) (n : ℕ) (a b : ℝ) :
    List.zipWith f (List.replicate n a) (List.replicate n b) =
      List.replicate n (f a b) := by
  induction n with
  | zero => simp
  | succ m ih => simp [List.replicate_succ, ih]

lemma pyInt_of_nonneg {x : ℝ} (h : 0 ≤ x) : pyInt x = ⌊x⌋ := if_pos h

lemma abs_pyInt_le (x : ℝ) : (|pyInt x| : ℝ) ≤ |x| := by
  unfold pyInt
  split_ifs with h
  · have h1 : (0 : ℝ) ≤ ((⌊x⌋ : ℤ) : ℝ) := by
      exact_mod_cast Int.floor_nonneg.mpr h
    rw [abs_of_nonneg h1, abs_of_nonneg h]
    exact_mod_cast Int.floor_le x
  · push_neg at h
    have h0 : ⌈x⌉ ≤ 0 := Int.ceil_le.mpr (by exact_mod_cast h.le)
    have h1 : ((⌈x⌉ : ℤ) : ℝ) ≤ 0 := by exact_mod_cast h0
    rw [abs_of_nonpos h1, abs_of_nonpos h.le]
    exact neg_le_neg (Int.le_ceil x)

lemma posLimit_nonneg (p : ℝ) : 0 ≤ posLimit p := by
  unfold posLimit
  rw [pyInt_of_nonneg (by positivity)]
  exact Int.floor_nonneg.mpr (by positivity)

lemma abs_clipZ_le {L : ℤ} (x : ℤ) (hL : 0 ≤ L) : |clipZ x (-L) L| ≤ L := by
  unfold clipZ
  rw [abs_le]
  constructor
  · exact le_min (by omega) (le_max_of_le_right (by omega))
  · exact min_le_left _ _

/-- Modelled from the spec (testable property for the volatility
estimator): the simple returns `(p[t] - p[t-1]) / p[t-1]` over the most
recent window, aligned with the same slices as the code's log returns. -/
def simpleReturns (row : List ℝ) : List ℝ :=
  List.zipWith (fun a b => (a - b) / b) (lastSlice row 20) (lastSlice row 21).dropLast

/-- Modelled from the spec: the volatility estimate as claim C7 words it,
namely the standard deviation of the *simple* returns over the window,
with the same insufficient-history fallback. -/
def specVolatilitySimple (nt : ℕ) (row : List ℝ) : ℝ :=
  if 21 ≤ nt then npStd (simpleReturns row) else 0.02

lemma npMean_nonneg {l : List ℝ} (h : ∀ x ∈ l, 0 ≤ x) : 0 ≤ npMean l :=
  div_nonneg (List.sum_nonneg h) (Nat.cast_nonneg _)

lemma mem_pySliceLast {α} {l : List α} {p : ℕ} {x : α} (h : x ∈ pySliceLast l p) :
    x ∈ l := by
  unfold pySliceLast at h
  split_ifs at h
  · exact h
  · exact List.mem_of_mem_drop h

lemma lastSlice_length {α} (l : List α) (k : ℕ) (h : k ≤ l.length) :
    (lastSlice l k).length = k := by
  simp only [lastSlice, List.length_drop]
  omega

lemma npDiff_length (l : List ℝ) : (npDiff l).length = l.length - 1 := by
  simp only [npDiff, List.length_zipWith, List.length_tail]
  omega

lemma rsi_formula_bounds (ag al : ℝ) (hag : 0 ≤ ag) (hal : 0 ≤ al) (hne : al ≠ 0) :
    0 ≤ 100 - 100 / (1 + ag / al) ∧ 100 - 100 / (1 + ag / al) ≤ 100 := by
  have hal' : 0 < al := lt_of_le_of_ne hal (Ne.symm hne)
  have hdiv : 0 ≤ ag / al := div_nonneg hag hal'.le
  have h1 : (0 : ℝ) < 1 + ag / al := by linarith
  constructor
  · have h2 : 100 / (1 + ag / al) ≤ 100 := by
      rw [div_le_iff₀ h1]
      nlinarith
    linarith
  · have h3 : 0 < 100 / (1 + ag / al) := by positivity
    linarith

lemma mean_replicate_zero_concat (c : ℝ) :
    npMean (List.replicate 19 0 ++ [c]) = c / 20 := by
  have h1 : (List.replicate 19 (0 : ℝ) ++ [c]).sum = c := by
    rw [List.sum_append, sum_replicate_real]
    simp
  have h2 : (List.replicate 19 (0 : ℝ) ++ [c]).length = 20 := by simp
  rw [npMean, h1, h2]
  norm_num

lemma npStd_replicate_zero_concat (c : ℝ) :
    npStd (List.replicate 19 0 ++ [c]) = Real.sqrt (19 * c ^ 2 / 400) := by
  rw [npStd, mean_replicate_zero_concat]
  have hm : (List.replicate 19 (0 : ℝ) ++ [c]).map (fun x => (x - c / 20) ^ 2) =
      List.replicate 19 ((0 - c / 20) ^ 2) ++ [(c - c / 20) ^ 2] := by
    rw [List.map_append, List.map_replicate]
    simp
  congr 1
  rw [hm, npMean]
  have h2 : ((List.replicate 19 ((0 - c / 20) ^ 2) ++ [(c - c / 20) ^ 2])).length = 20 := by
    simp
  rw [h2, List.sum_append, sum_replicate_real]
  simp only [List.sum_cons, List.sum_nil]
  push_cast
  ring

/- ------------------------------------------------------------------ -/
/- Claim theorems.                                                     -/
/- ------------------------------------------------------------------ -/

/-- Claim C2: if the supplied price history has fewer than
`TREND_LOOKBACK + 10 = 110` days, `getMyPosition` returns the all-zero
vector whose length is the number of instruments (rows) of the input. -/
theorem C2_insufficient_history_returns_zero_vector
    (st : TraderState) (prc : List (List ℝ)) (h : ntOf prc < 110) :
    (getMyPosition st prc).2 = List.replicate prc.length 0 := by
  simp [getMyPosition, h]

/-- Claim C2, witness: a concrete 2-instrument, 1-day history. -/
theorem C2_witness :
    ntOf [[(1 : ℝ)], [1]] < 110 ∧
      (getMyPosition initState [[(1 : ℝ)], [1]]).2 = List.replicate 2 0 :=
  ⟨by simp [ntOf], C2_insufficient_history_returns_zero_vector _ _ (by simp [ntOf])⟩

/-- Claim C8: on the insufficient-history early return, `currentPos` and
`position_entry_day` are left unchanged, but `global_day_counter` is
still set to the number of days of the supplied history. -/
theorem C8_early_return_frame_effect
    (st : TraderState) (prc : List (List ℝ)) (h : ntOf prc < 110) :
    (getMyPosition st prc).1.currentPos = st.currentPos ∧
      (getMyPosition st prc).1.position_entry_day = st.position_entry_day ∧
      (getMyPosition st prc).1.global_day_counter = ntOf prc := by
  simp [getMyPosition, h]

/-- Claim C8, witness: concrete early-return call from a state with a
nonzero position, nonnegative entry day and stale day counter. -/
theorem C8_witness :
    ntOf [[(1 : ℝ)]] < 110 ∧
      (getMyPosition ⟨List.replicate 50 7, fun _ => 3, 42⟩ [[(1 : ℝ)]]).1.currentPos =
        List.replicate 50 7 ∧
      (getMyPosition ⟨List.replicate 50 7, fun _ => 3, 42⟩ [[(1 : ℝ)]]).1.global_day_counter = 1 :=
  ⟨by simp [ntOf],
   (C8_early_return_frame_effect ⟨List.replicate 50 7, fun _ => 3, 42⟩ _ (by simp [ntOf])).1,
   by
     have h := (C8_early_return_frame_effect ⟨List.replicate 50 7, fun _ => 3, 42⟩
       [[(1 : ℝ)]] (by simp [ntOf])).2.2
     simpa [ntOf] using h⟩

/-- Claim C5: `identify_trend` returns 0 on fewer than 100 prices;
otherwise it returns 1 exactly when the 20-day moving average exceeds the
100-day moving average by more than 2%, -1 exactly when it is more than
2% below, and 0 otherwise. -/
theorem C5_trend_classifier_characterization (prices : List ℝ)
    (hpos : ∀ x ∈ prices, 0 < x) :
    (prices.length < 100 → identify_trend prices 20 100 = 0) ∧
    (100 ≤ prices.length →
      ((identify_trend prices 20 100 = 1 ↔
          (lastSlice prices 20).sum / 20 > (lastSlice prices 100).sum / 100 * 1.02) ∧
       (identify_trend prices 20 100 = -1 ↔
          (lastSlice prices 20).sum / 20 < (lastSlice prices 100).sum / 100 * 0.98) ∧
       (identify_trend prices 20 100 = 0 ↔
          (¬ (lastSlice prices 20).sum / 20 > (lastSlice prices 100).sum / 100 * 1.02 ∧
           ¬ (lastSlice prices 20).sum / 20 < (lastSlice prices 100).sum / 100 * 0.98)))) := by
  constructor
  · intro h
    rw [identify_trend, if_pos h]
  · intro h
    have h20 : npMean (lastSlice prices 20) = (lastSlice prices 20).sum / 20 := by
      rw [npMean, lastSlice_length _ _ (by omega)]
      norm_num
    have h100 : npMean (lastSlice prices 100) = (lastSlice prices 100).sum / 100 := by
      rw [npMean, lastSlice_length _ _ h]
      norm_num
    have hlma : 0 < (lastSlice prices 100).sum / 100 := by
      apply div_pos
      · apply List.sum_pos
        · intro x hx
          exact hpos x (List.mem_of_mem_drop hx)
        · have := lastSlice_length prices 100 h
          intro hnil
          rw [hnil] at this
          simp at this
      · norm_num
    rw [identify_trend, if_neg (not_lt.mpr h)]
    simp only [h20, h100]
    split_ifs with ha hb
    · refine ⟨by simp [ha], ?_, ?_⟩
      · constructor
        · intro hcon
          exact absurd hcon (by decide)
        · intro hcon
          nlinarith
      · constructor
        · intro hcon
          exact absurd hcon (by decide)
        · intro hcon
          exact absurd ha hcon.1
    · refine ⟨?_, by simp [hb], ?_⟩
      · constructor
        · intro hcon
          exact absurd hcon (by decide)
        · intro hcon
          exact absurd hcon ha
      · constructor
        · intro hcon
          exact absurd hcon (by decide)
        · intro hcon
          exact absurd hb hcon.2
    · refine ⟨?_, ?_, by simp [ha, hb]⟩
      · constructor
        · intro hcon
          exact absurd hcon (by decide)
        · intro hcon
          exact absurd hcon ha
      · constructor
        · intro hcon
          exact absurd hcon (by decide)
        · intro hcon
          exact absurd hcon hb

/-- Claim C5, witness: a 100-day series whose last 20 days are well above
the long average is classified as an uptrend. -/
theorem C5_witness :
    100 ≤ (List.replicate 80 (1 : ℝ) ++ List.replicate 20 2).length ∧
      identify_trend (List.replicate 80 (1 : ℝ) ++ List.replicate 20 2) 20 100 = 1 := by
  have hlen : (List.replicate 80 (1 : ℝ) ++ List.replicate 20 2).length = 100 := by simp
  have h20 : lastSlice (List.replicate 80 (1 : ℝ) ++ List.replicate 20 2) 20 =
      List.replicate 20 (2 : ℝ) := by
    rw [lastSlice, hlen]
    rw [drop_append_ge _ _ 80 (by simp)]
    simp
  have h100 : lastSlice (List.replicate 80 (1 : ℝ) ++ List.replicate 20 2) 100 =
      List.replicate 80 (1 : ℝ) ++ List.replicate 20 2 := by
    rw [lastSlice, hlen]
    simp
  refine ⟨by rw [hlen], ?_⟩
  have hpos : ∀ x ∈ List.replicate 80 (1 : ℝ) ++ List.replicate 20 2, 0 < x := by
    intro x hx
    rcases List.mem_append.mp hx with hx | hx
    · rw [List.eq_of_mem_replicate hx]
      norm_num
    · rw [List.eq_of_mem_replicate hx]
      norm_num
  have h := ((C5_trend_classifier_characterization
    (List.replicate 80 (1 : ℝ) ++ List.replicate 20 2) hpos).2 (by rw [hlen])).1
  rw [h, h20, h100]
  rw [List.sum_append, sum_replicate_real, sum_replicate_real]
  norm_num

/-- Claim C9: for every input slice and every period, `calculate_rsi`
returns a value in the closed interval `[0, 100]`. -/
lemma gains_slice_nonneg (prices : List ℝ) (period : ℕ) :
    0 ≤ npMean (pySliceLast ((npDiff prices).map fun d => if 0 < d then d else 0) period) := by
  apply npMean_nonneg
  intro x hx
  obtain ⟨d, _, rfl⟩ := List.mem_map.mp (mem_pySliceLast hx)
  split_ifs with hd
  · exact hd.le
  · exact le_refl 0

lemma losses_slice_nonneg (prices : List ℝ) (period : ℕ) :
    0 ≤ npMean (pySliceLast ((npDiff prices).map fun d => if d < 0 then -d else 0) period) := by
  apply npMean_nonneg
  intro x hx
  obtain ⟨d, _, rfl⟩ := List.mem_map.mp (mem_pySliceLast hx)
  split_ifs with hd
  · linarith
  · exact le_refl 0

theorem C9_rsi_bounded (prices : List ℝ) (period : ℕ) :
    0 ≤ calculate_rsi prices period ∧ calculate_rsi prices period ≤ 100 := by
  simp only [calculate_rsi]
  split_ifs with h1 hL hz hG hz2 hG2
  all_goals first
    | (exact rsi_formula_bounds _ _ (gains_slice_nonneg _ _) (losses_slice_nonneg _ _)
        (by assumption))
    | (exact rsi_formula_bounds _ _ (le_refl 0) (losses_slice_nonneg _ _) (by assumption))
    | exact absurd rfl (by assumption)
    | norm_num

/-- Claim C6: `calculate_rsi` returns 50 on fewer than `period + 1`
prices; otherwise (for `period ≥ 1`), with the average gain / loss taken
as the mean of the positive / negated negative day-over-day deltas over
the last `period` deltas, it returns 100 when the average loss is zero
and `100 - 100 / (1 + avg_gain / avg_loss)` otherwise. -/
theorem C6_rsi_characterization (prices : List ℝ) (period : ℕ) (hp : 1 ≤ period) :
    (prices.length < period + 1 → calculate_rsi prices period = 50) ∧
    (period + 1 ≤ prices.length →
      ((((npDiff prices).map fun d => if d < 0 then -d else 0).drop
          ((npDiff prices).length - period)).sum / period = 0 →
        calculate_rsi prices period = 100) ∧
      ((((npDiff prices).map fun d => if d < 0 then -d else 0).drop
          ((npDiff prices).length - period)).sum / period ≠ 0 →
        calculate_rsi prices period =
          100 - 100 / (1 +
            (((((npDiff prices).map fun d => if 0 < d then d else 0).drop
                ((npDiff prices).length - period)).sum / period) /
             ((((npDiff prices).map fun d => if d < 0 then -d else 0).drop
                ((npDiff prices).length - period)).sum / period))))) := by
  constructor
  · intro h
    rw [calculate_rsi, if_pos h]
  · intro h
    have hglen : ((npDiff prices).map fun d => if 0 < d then d else 0).length =
        (npDiff prices).length := List.length_map _ _
    have hllen : ((npDiff prices).map fun d => if d < 0 then -d else 0).length =
        (npDiff prices).length := List.length_map _ _
    have hdlen : (npDiff prices).length = prices.length - 1 := npDiff_length prices
    have hple : period ≤ (npDiff prices).length := by omega
    have hgslice : pySliceLast ((npDiff prices).map fun d => if 0 < d then d else 0) period =
        ((npDiff prices).map fun d => if 0 < d then d else 0).drop
          ((npDiff prices).length - period) := by
      rw [pySliceLast, if_neg (by omega), hglen]
    have hlslice : pySliceLast ((npDiff prices).map fun d => if d < 0 then -d else 0) period =
        ((npDiff prices).map fun d => if d < 0 then -d else 0).drop
          ((npDiff prices).length - period) := by
      rw [pySliceLast, if_neg (by omega), hllen]
    have hgsllen : (((npDiff prices).map fun d => if 0 < d then d else 0).drop
        ((npDiff prices).length - period)).length = period := by
      rw [List.length_drop, hglen]
      omega
    have hlsllen : (((npDiff prices).map fun d => if d < 0 then -d else 0).drop
        ((npDiff prices).length - period)).length = period := by
      rw [List.length_drop, hllen]
      omega
    have hgavg : npMean (pySliceLast ((npDiff prices).map fun d => if 0 < d then d else 0) period) =
        (((npDiff prices).map fun d => if 0 < d then d else 0).drop
          ((npDiff prices).length - period)).sum / period := by
      rw [hgslice, npMean, hgsllen]
    have hlavg : npMean (pySliceLast ((npDiff prices).map fun d => if d < 0 then -d else 0) period) =
        (((npDiff prices).map fun d => if d < 0 then -d else 0).drop
          ((npDiff prices).length - period)).sum / period := by
      rw [hlslice, npMean, hlsllen]
    constructor
    · intro hz
      simp only [calculate_rsi]
      rw [if_neg (show ¬ prices.length < period + 1 from by omega)]
      rw [if_pos (show period ≤ ((npDiff prices).map fun d => if 0 < d then d else 0).length
            from by rw [hglen]; exact hple)]
      rw [if_pos (show period ≤ ((npDiff prices).map fun d => if d < 0 then -d else 0).length
            from by rw [hllen]; exact hple)]
      rw [hgavg, hlavg, if_pos hz]
    · intro hz
      simp only [calculate_rsi]
      rw [if_neg (show ¬ prices.length < period + 1 from by omega)]
      rw [if_pos (show period ≤ ((npDiff prices).map fun d => if 0 < d then d else 0).length
            from by rw [hglen]; exact hple)]
      rw [if_pos (show period ≤ ((npDiff prices).map fun d => if d < 0 then -d else 0).length
            from by rw [hllen]; exact hple)]
      rw [hgavg, hlavg, if_neg hz]

/-- Claim C6, witness: on prices `[1, 2, 3]` with period 2 all deltas are
gains, the average loss is 0, and the RSI is 100. -/
theorem C6_witness :
    (1 : ℕ) ≤ 2 ∧ calculate_rsi [(1 : ℝ), 2, 3] 2 = 100 :=
  ⟨by norm_num,
   ((C6_rsi_characterization [(1 : ℝ), 2, 3] 2 (by norm_num)).2 (by norm_num)).1
     (by norm_num [npDiff, List.zipWith])⟩

/- ------------------------------------------------------------------ -/
/- Bounds on the per-instrument step.                                  -/
/- ------------------------------------------------------------------ -/

lemma abs_pyInt_mul_le (c : ℤ) (t : ℝ) (h0 : 0 ≤ t) (h1 : t ≤ 1) :
    |pyInt ((c : ℝ) * t)| ≤ |c| := by
  have h := abs_pyInt_le ((c : ℝ) * t)
  have h2 : |(c : ℝ) * t| ≤ |(c : ℝ)| := by
    rw [abs_mul, abs_of_nonneg h0]
    nlinarith [abs_nonneg (c : ℝ)]
  have h3 : (|pyInt ((c : ℝ) * t)| : ℝ) ≤ ((|c| : ℤ) : ℝ) := by
    rw [Int.cast_abs]
    linarith
  exact_mod_cast h3

lemma stepInstr_abs_bound (row : List ℝ) (nt : ℕ) (cur entry : ℤ) :
    |(stepInstr row nt cur entry).1| ≤
      max (posLimit (row.getD (row.length - 1) 0)) |cur| := by
  have hL : (0 : ℤ) ≤ posLimit (row.getD (row.length - 1) 0) := posLimit_nonneg _
  simp only [stepInstr]
  by_cases h1 : row.getD (row.length - 1) 0 < 10
  · rw [if_pos h1]
    simpa using le_trans hL (le_max_left _ _)
  · rw [if_neg h1]
    by_cases h2 : identify_trend row 20 100 = 0
    · rw [if_pos h2]
      exact le_trans (abs_pyInt_mul_le cur 0.5 (by norm_num) (by norm_num))
        (le_max_right _ _)
    · rw [if_neg h2]
      by_cases h3 : volatilityOf nt row > 0.012
      · rw [if_pos h3]
        exact le_trans (abs_pyInt_mul_le cur 0.7 (by norm_num) (by norm_num))
          (le_max_right _ _)
      · rw [if_neg h3]
        by_cases h4 : 0 ≤ entry ∧ 5 ≤ (nt : ℤ) - entry
        · rw [if_pos h4]
          simpa using le_trans hL (le_max_left _ _)
        · rw [if_neg h4]
          exact le_trans (abs_clipZ_le _ hL) (le_max_left _ _)

/-- Claim C1, amended: every component of the returned vector is bounded
in magnitude by the larger of that day's position limit and the magnitude
of the previous position for that instrument (on the decay paths the clip
of line 153 is skipped, so only the previous-position bound holds there). -/
theorem C1_position_bounded_by_limit_or_previous
    (st : TraderState) (prc : List (List ℝ)) (i : ℕ) :
    |(getMyPosition st prc).2.getD i 0| ≤
      max (posLimit ((prc.getD i []).getD ((prc.getD i []).length - 1) 0))
        |st.currentPos.getD i 0| := by
  have hL : (0 : ℤ) ≤ posLimit ((prc.getD i []).getD ((prc.getD i []).length - 1) 0) :=
    posLimit_nonneg _
  by_cases h : ntOf prc < 110
  · have hout : (getMyPosition st prc).2 = List.replicate prc.length 0 := by
      simp [getMyPosition, h]
    rw [hout, getD_replicate_zero]
    simpa using le_trans hL (le_max_left _ _)
  · have hout : (getMyPosition st prc).2 = (List.range prc.length).map (fun j =>
        (stepInstr (prc.getD j []) (ntOf prc) (st.currentPos.getD j 0)
          (st.position_entry_day j)).1) := by
      simp [getMyPosition, h]
    rw [hout, getD_map_range]
    split_ifs with hi
    · exact stepInstr_abs_bound _ _ _ _
    · simpa using le_trans hL (le_max_left _ _)

/-- Claim C3, amended: the holding-period force-close does fire — with
position zeroed and entry day cleared — on a call where the instrument's
pass actually reaches the holding-period check, i.e. when the price is at
least `MIN_PRICE`, the trend is nonzero and the volatility is within the
threshold; on the decay paths (neutral trend or high volatility) the
check is skipped and the position can survive past the holding period. -/
theorem C3_forced_exit_on_check_path
    (st : TraderState) (prc : List (List ℝ)) (i : ℕ)
    (hi : i < prc.length)
    (hnt : ¬ ntOf prc < 110)
    (hpr : ¬ (prc.getD i []).getD ((prc.getD i []).length - 1) 0 < 10)
    (htr : ¬ identify_trend (prc.getD i []) 20 100 = 0)
    (hvol : ¬ volatilityOf (ntOf prc) (prc.getD i []) > 0.012)
    (hent : 0 ≤ st.position_entry_day i)
    (hdays : 5 ≤ (ntOf prc : ℤ) - st.position_entry_day i) :
    (getMyPosition st prc).2.getD i 0 = 0 ∧
      (getMyPosition st prc).1.position_entry_day i = -1 := by
  have hstep : stepInstr (prc.getD i []) (ntOf prc) (st.currentPos.getD i 0)
      (st.position_entry_day i) = (0, -1) := by
    simp only [stepInstr]
    rw [if_neg hpr, if_neg htr, if_neg hvol, if_pos ⟨hent, hdays⟩]
  constructor
  · have hout : (getMyPosition st prc).2 = (List.range prc.length).map (fun j =>
        (stepInstr (prc.getD j []) (ntOf prc) (st.currentPos.getD j 0)
          (st.position_entry_day j)).1) := by
      simp [getMyPosition, hnt]
    rw [hout, getD_map_range, if_pos hi, hstep]
  · have hentry : (getMyPosition st prc).1.position_entry_day i =
        (stepInstr (prc.getD i []) (ntOf prc) (st.currentPos.getD i 0)
          (st.position_entry_day i)).2 := by
      simp [getMyPosition, hnt, hi]
    rw [hentry, hstep]

/- ------------------------------------------------------------------ -/
/- A concrete 111-day price series on which the strategy opens a long  -/
/- position of 40 shares: 90 days at 50, 20 days at 100, one day at 99.-/
/- ------------------------------------------------------------------ -/

def S1 : List ℝ := List.replicate 90 50 ++ (List.replicate 20 100 ++ [99])

def M1 : List (List ℝ) := List.replicate 50 S1

lemma S1_length : S1.length = 111 := by simp [S1]

lemma ntOf_M1 : ntOf M1 = 111 := by
  rw [ntOf, M1, show List.replicate 50 S1 = S1 :: List.replicate 49 S1 from rfl,
    List.headD_cons, S1_length]

lemma M1_getD {i : ℕ} (hi : i < 50) : M1.getD i [] = S1 := by
  rw [M1]
  exact getD_replicate_of_lt _ _ hi

lemma drop_append_le {α} (l₁ l₂ : List α) (n : ℕ) (h : n ≤ l₁.length) :
    (l₁ ++ l₂).drop n = l₁.drop n ++ l₂ := by
  rw [List.drop_append_eq_append_drop, show n - l₁.length = 0 from by omega,
    List.drop_zero]

lemma S1_getD_110 : S1.getD 110 0 = 99 := by
  rw [S1, List.getD_append_right _ _ _ _ (by simp)]
  simp only [List.length_replicate]
  rw [show (110 - 90 : ℕ) = 20 from rfl,
    List.getD_append_right _ _ _ _ (by simp)]
  simp

lemma S1_getD_109 : S1.getD 109 0 = 100 := by
  rw [S1, List.getD_append_right _ _ _ _ (by simp)]
  simp only [List.length_replicate]
  rw [show (109 - 90 : ℕ) = 19 from rfl, List.getD_append _ _ _ _ (by simp)]
  exact getD_replicate_of_lt _ _ (by norm_num)

lemma S1_drop_91 : S1.drop 91 = List.replicate 19 (100 : ℝ) ++ [99] := by
  rw [S1, drop_append_ge _ _ 91 (by simp)]
  simp only [List.length_replicate]
  rw [show (91 - 90 : ℕ) = 1 from rfl,
    show List.replicate 20 (100 : ℝ) = 100 :: List.replicate 19 100 from rfl]
  rfl

lemma S1_drop_90 : S1.drop 90 = List.replicate 20 (100 : ℝ) ++ [99] := by
  rw [S1, drop_append_ge _ _ 90 (by simp)]
  simp

lemma S1_drop_11 : S1.drop 11 =
    List.replicate 79 (50 : ℝ) ++ (List.replicate 20 100 ++ [99]) := by
  rw [S1, drop_append_le _ _ 11 (by simp), List.drop_replicate]

lemma S1_drop_31 : S1.drop 31 =
    List.replicate 59 (50 : ℝ) ++ (List.replicate 20 100 ++ [99]) := by
  rw [S1, drop_append_le _ _ 31 (by simp), List.drop_replicate]

lemma S1_drop_101 : S1.drop 101 = List.replicate 9 (100 : ℝ) ++ [99] := by
  rw [S1, drop_append_ge _ _ 101 (by simp)]
  simp only [List.length_replicate]
  rw [show (101 - 90 : ℕ) = 11 from rfl, drop_append_le _ _ 11 (by simp),
    List.drop_replicate]

lemma trend_S1 : identify_trend S1 20 100 = 1 := by
  have h20 : npMean (lastSlice S1 20) = 99.95 := by
    rw [lastSlice, S1_length, show (111 - 20 : ℕ) = 91 from rfl, S1_drop_91, npMean,
      List.sum_append, sum_replicate_real]
    simp only [List.sum_cons, List.sum_nil, List.length_append, List.length_replicate,
      List.length_cons, List.length_nil]
    norm_num
  have h100 : npMean (lastSlice S1 100) = 60.49 := by
    rw [lastSlice, S1_length, show (111 - 100 : ℕ) = 11 from rfl, S1_drop_11, npMean,
      List.sum_append, List.sum_append, sum_replicate_real, sum_replicate_real]
    simp only [List.sum_cons, List.sum_nil, List.length_append, List.length_replicate,
      List.length_cons, List.length_nil]
    norm_num
  simp only [identify_trend]
  rw [if_neg (by rw [S1_length]; norm_num), h20, h100, if_pos (by norm_num)]

lemma logReturns_S1 :
    logReturns S1 = List.replicate 19 0 ++ [Real.log ((99 : ℝ) / 100)] := by
  rw [logReturns, lastSlice, lastSlice, S1_length,
    show (111 - 20 : ℕ) = 91 from rfl, show (111 - 21 : ℕ) = 90 from rfl,
    S1_drop_91, S1_drop_90, List.dropLast_concat]
  have h20 : List.replicate 20 (100 : ℝ) = List.replicate 19 100 ++ [100] := by
    rw [show (20 : ℕ) = 19 + 1 from rfl, List.replicate_succ']
  rw [h20, List.zipWith_append _ _ _ _ _ (by simp), zipWith_replicate_both]
  norm_num [Real.log_one]

lemma logL_neg : Real.log ((99 : ℝ) / 100) < 0 :=
  Real.log_neg (by norm_num) (by norm_num)

lemma logL_abs_le : -Real.log ((99 : ℝ) / 100) ≤ 1 / 99 := by
  have h1 : Real.log ((100 : ℝ) / 99) ≤ 100 / 99 - 1 :=
    Real.log_le_sub_one_of_pos (by norm_num)
  have h2 : ((99 : ℝ) / 100) = ((100 : ℝ) / 99)⁻¹ := by norm_num
  rw [h2, Real.log_inv, neg_neg]
  linarith

lemma vol_S1_eq :
    volatilityOf 111 S1 = Real.sqrt (19 * Real.log ((99 : ℝ) / 100) ^ 2 / 400) := by
  rw [volatilityOf, if_pos (by norm_num), logReturns_S1, npStd_replicate_zero_concat]

lemma vol_S1_le : volatilityOf 111 S1 ≤ 0.012 := by
  rw [vol_S1_eq]
  have hL1 := logL_neg
  have hL2 := logL_abs_le
  calc Real.sqrt (19 * Real.log ((99 : ℝ) / 100) ^ 2 / 400) ≤
      Real.sqrt ((0.012 : ℝ) ^ 2) := by
        apply Real.sqrt_le_sqrt
        nlinarith
    _ = 0.012 := Real.sqrt_sq (by norm_num)

lemma vol_S1_pos : 0 < volatilityOf 111 S1 := by
  rw [vol_S1_eq]
  apply Real.sqrt_pos.mpr
  have := logL_neg
  nlinarith

lemma vol_S1_form :
    volatilityOf 111 S1 = Real.sqrt 19 * -Real.log ((99 : ℝ) / 100) / 20 := by
  rw [vol_S1_eq]
  have hL := logL_neg
  have hs : Real.sqrt 19 ^ 2 = 19 := Real.sq_sqrt (by norm_num)
  have h : 19 * Real.log ((99 : ℝ) / 100) ^ 2 / 400 =
      (Real.sqrt 19 * -Real.log ((99 : ℝ) / 100) / 20) ^ 2 := by
    rw [div_pow, mul_pow, hs, neg_pow]
    norm_num
  rw [h]
  exact Real.sqrt_sq (by nlinarith [Real.sqrt_nonneg (19 : ℝ)])

lemma sqrt19_gt : (2.5 : ℝ) < Real.sqrt 19 :=
  (Real.lt_sqrt (by norm_num)).mpr (by norm_num)

lemma sqrt19_gt4 : (4 : ℝ) < Real.sqrt 19 :=
  (Real.lt_sqrt (by norm_num)).mpr (by norm_num)

lemma z_S1 :
    (Real.log ((99 : ℝ) / 100) - Real.log ((99 : ℝ) / 100) / 20) / volatilityOf 111 S1 =
      -Real.sqrt 19 := by
  rw [vol_S1_form]
  have hL := logL_neg
  have hs19 : Real.sqrt 19 * Real.sqrt 19 = 19 := Real.mul_self_sqrt (by norm_num)
  have hsp : 0 < Real.sqrt 19 := Real.sqrt_pos.mpr (by norm_num)
  have hne : Real.sqrt 19 * -Real.log ((99 : ℝ) / 100) / 20 ≠ 0 := by
    apply ne_of_gt
    apply div_pos (mul_pos hsp (by linarith)) (by norm_num)
  rw [div_eq_iff hne]
  linear_combination (-(Real.log ((99 : ℝ) / 100) / 20)) * hs19

lemma posLimit_99 : posLimit 99 = 101 := by
  rw [posLimit, show max (99 : ℝ) 10 = 99 from max_eq_left (by norm_num), pyInt,
    if_pos (by positivity)]
  rw [Int.floor_eq_iff] <;> norm_num

lemma rsi_S1 : calculate_rsi (lastSlice S1 10) 2 = 0 := by
  have hsl : lastSlice S1 10 = List.replicate 9 (100 : ℝ) ++ [99] := by
    rw [lastSlice, S1_length, show (111 - 10 : ℕ) = 101 from rfl, S1_drop_101]
  have hlit : List.replicate 9 (100 : ℝ) ++ [99] =
      [100, 100, 100, 100, 100, 100, 100, 100, 100, 99] := rfl
  rw [hsl, hlit]
  norm_num [calculate_rsi, npDiff, pySliceLast, npMean, List.zipWith]

lemma step_S1_entry : stepInstr S1 111 0 (-1) = (40, 111) := by
  have hp110 : S1.getD (S1.length - 1) 0 = 99 := by rw [S1_length]; exact S1_getD_110
  have hp109 : S1.getD (S1.length - 2) 0 = 100 := by rw [S1_length]; exact S1_getD_109
  have hmean : npMean (logReturns S1) = Real.log ((99 : ℝ) / 100) / 20 := by
    rw [logReturns_S1]
    exact mean_replicate_zero_concat _
  simp only [stepInstr]
  rw [hp110, hp109]
  rw [if_neg (by norm_num : ¬ (99 : ℝ) < 10)]
  rw [trend_S1]
  rw [if_neg (by decide : ¬ (1 : ℤ) = 0)]
  rw [if_neg (not_lt.mpr vol_S1_le)]
  rw [if_neg (by omega : ¬ (0 ≤ (-1 : ℤ) ∧ 5 ≤ ((111 : ℕ) : ℤ) - -1))]
  rw [if_pos (rfl : (1 : ℤ) = 1)]
  rw [if_pos (by norm_num : (21 : ℕ) ≤ 111)]
  rw [if_pos vol_S1_pos]
  rw [if_pos (by rw [S1_length]; norm_num : (10 : ℕ) ≤ S1.length)]
  rw [hmean, rsi_S1, z_S1]
  rw [if_pos (⟨by linarith [sqrt19_gt], by norm_num, trivial⟩ :
    -Real.sqrt 19 < -2.5 ∧ (0 : ℝ) < 20 ∧ True)]
  rw [posLimit_99]
  rw [show |-Real.sqrt 19| = Real.sqrt 19 from by
    rw [abs_neg, abs_of_nonneg (Real.sqrt_nonneg _)]]
  rw [show min (1 : ℝ) (Real.sqrt 19 / 4) = 1 from min_eq_left (by linarith [sqrt19_gt4])]
  rw [show pyInt (0.4 * ((101 : ℤ) : ℝ) * 1) = 40 from by
    rw [pyInt, if_pos (by norm_num), show (0.4 * ((101 : ℤ) : ℝ) * 1) = 40.4 from by norm_num]
    rw [Int.floor_eq_iff] <;> norm_num]
  rw [show clipZ 40 (-101) 101 = 40 from by norm_num [clipZ]]
  norm_num

/- First call on `M1`: every instrument opens a long position of 40 and
records entry day 111. -/

lemma call1_out : (getMyPosition initState M1).2 = List.replicate 50 40 := by
  have hnt : ¬ ntOf M1 < 110 := by rw [ntOf_M1]; norm_num
  have hlen : M1.length = 50 := by simp [M1]
  have hout : (getMyPosition initState M1).2 = (List.range M1.length).map (fun j =>
      (stepInstr (M1.getD j []) (ntOf M1) (initState.currentPos.getD j 0)
        (initState.position_entry_day j)).1) := by
    simp [getMyPosition, hnt]
  rw [hout, hlen]
  refine List.eq_replicate_iff.mpr ⟨by simp, ?_⟩
  intro b hb
  obtain ⟨j, hj, rfl⟩ := List.mem_map.mp hb
  rw [List.mem_range] at hj
  rw [M1_getD hj, ntOf_M1,
    show initState.currentPos.getD j 0 = 0 from getD_replicate_zero 50 j,
    show initState.position_entry_day j = -1 from rfl, step_S1_entry]

lemma call1_pos : (getMyPosition initState M1).1.currentPos = List.replicate 50 40 := by
  have hnt : ¬ ntOf M1 < 110 := by rw [ntOf_M1]; norm_num
  have h : (getMyPosition initState M1).1.currentPos = (getMyPosition initState M1).2 := by
    simp [getMyPosition, hnt]
  rw [h, call1_out]

lemma call1_entry : (getMyPosition initState M1).1.position_entry_day 0 = 111 := by
  have hnt : ¬ ntOf M1 < 110 := by rw [ntOf_M1]; norm_num
  have h : (getMyPosition initState M1).1.position_entry_day 0 =
      (stepInstr (M1.getD 0 []) (ntOf M1) (initState.currentPos.getD 0 0)
        (initState.position_entry_day 0)).2 := by
    simp [getMyPosition, hnt, show (0 : ℕ) < M1.length from by simp [M1]]
  rw [h, M1_getD (by norm_num), ntOf_M1,
    show initState.currentPos.getD 0 0 = 0 from getD_replicate_zero 50 0,
    show initState.position_entry_day 0 = -1 from rfl, step_S1_entry]

/- Second call, price jumped to 520 and stayed there for 100 days: the
trend is neutral, so the position decays by half, bypassing the clip. -/

def S2 : List ℝ := S1 ++ List.replicate 100 520

def M2 : List (List ℝ) := List.replicate 50 S2

lemma S2_length : S2.length = 211 := by simp [S2, S1_length]

lemma ntOf_M2 : ntOf M2 = 211 := by
  rw [ntOf, M2, show List.replicate 50 S2 = S2 :: List.replicate 49 S2 from rfl,
    List.headD_cons, S2_length]

lemma M2_getD {i : ℕ} (hi : i < 50) : M2.getD i [] = S2 := by
  rw [M2]
  exact getD_replicate_of_lt _ _ hi

lemma S2_getD_210 : S2.getD 210 0 = 520 := by
  rw [S2, List.getD_append_right _ _ _ _ (by rw [S1_length]; norm_num)]
  rw [S1_length, show (210 - 111 : ℕ) = 99 from rfl]
  exact getD_replicate_of_lt _ _ (by norm_num)

lemma S2_drop_191 : S2.drop 191 = List.replicate 20 (520 : ℝ) := by
  rw [S2, drop_append_ge _ _ 191 (by rw [S1_length]; norm_num)]
  rw [S1_length, show (191 - 111 : ℕ) = 80 from rfl, List.drop_replicate]

lemma S2_drop_111 : S2.drop 111 = List.replicate 100 (520 : ℝ) := by
  rw [S2, drop_append_ge _ _ 111 (by rw [S1_length])]
  rw [S1_length, show (111 - 111 : ℕ) = 0 from rfl, List.drop_zero]

lemma trend_S2 : identify_trend S2 20 100 = 0 := by
  have h20 : npMean (lastSlice S2 20) = 520 := by
    rw [lastSlice, S2_length, show (211 - 20 : ℕ) = 191 from rfl, S2_drop_191, npMean,
      sum_replicate_real, List.length_replicate]
    norm_num
  have h100 : npMean (lastSlice S2 100) = 520 := by
    rw [lastSlice, S2_length, show (211 - 100 : ℕ) = 111 from rfl, S2_drop_111, npMean,
      sum_replicate_real, List.length_replicate]
    norm_num
  simp only [identify_trend]
  rw [if_neg (by rw [S2_length]; norm_num), h20, h100, if_neg (by norm_num),
    if_neg (by norm_num)]

lemma step_S2 : stepInstr S2 211 40 111 = (20, 111) := by
  simp only [stepInstr]
  rw [show S2.getD (S2.length - 1) 0 = 520 from by rw [S2_length]; exact S2_getD_210]
  rw [if_neg (by norm_num : ¬ (520 : ℝ) < 10)]
  rw [trend_S2, if_pos (rfl : (0 : ℤ) = 0)]
  rw [show pyInt (((40 : ℤ) : ℝ) * 0.5) = 20 from by
    rw [pyInt, if_pos (by norm_num), show ((40 : ℤ) : ℝ) * 0.5 = 20 from by norm_num]
    norm_num]

/- Second call, alternative continuation used against claim C3: twenty
extra days at price 62 make the trend neutral on day 131, with the
holding-period long since expired. -/

def S3 : List ℝ := S1 ++ List.replicate 20 62

def M3 : List (List ℝ) := List.replicate 50 S3

lemma S3_length : S3.length = 131 := by simp [S3, S1_length]

lemma ntOf_M3 : ntOf M3 = 131 := by
  rw [ntOf, M3, show List.replicate 50 S3 = S3 :: List.replicate 49 S3 from rfl,
    List.headD_cons, S3_length]

lemma M3_getD {i : ℕ} (hi : i < 50) : M3.getD i [] = S3 := by
  rw [M3]
  exact getD_replicate_of_lt _ _ hi

lemma S3_getD_130 : S3.getD 130 0 = 62 := by
  rw [S3, List.getD_append_right _ _ _ _ (by rw [S1_length]; norm_num)]
  rw [S1_length, show (130 - 111 : ℕ) = 19 from rfl]
  exact getD_replicate_of_lt _ _ (by norm_num)

lemma S3_drop_111 : S3.drop 111 = List.replicate 20 (62 : ℝ) := by
  rw [S3, drop_append_ge _ _ 111 (by rw [S1_length])]
  rw [S1_length, show (111 - 111 : ℕ) = 0 from rfl, List.drop_zero]

lemma S3_drop_31 : S3.drop 31 =
    (List.replicate 59 (50 : ℝ) ++ (List.replicate 20 100 ++ [99])) ++
      List.replicate 20 62 := by
  rw [S3, drop_append_le _ _ 31 (by rw [S1_length]; norm_num), S1_drop_31]

lemma trend_S3 : identify_trend S3 20 100 = 0 := by
  have h20 : npMean (lastSlice S3 20) = 62 := by
    rw [lastSlice, S3_length, show (131 - 20 : ℕ) = 111 from rfl, S3_drop_111, npMean,
      sum_replicate_real, List.length_replicate]
    norm_num
  have h100 : npMean (lastSlice S3 100) = 62.89 := by
    rw [lastSlice, S3_length, show (131 - 100 : ℕ) = 31 from rfl, S3_drop_31, npMean,
      List.sum_append, List.sum_append, List.sum_append, sum_replicate_real,
      sum_replicate_real, sum_replicate_real]
    simp only [List.sum_cons, List.sum_nil, List.length_append, List.length_replicate,
      List.length_cons, List.length_nil]
    norm_num
  simp only [identify_trend]
  rw [if_neg (by rw [S3_length]; norm_num), h20, h100, if_neg (by norm_num),
    if_neg (by norm_num)]

lemma step_S3 : stepInstr S3 131 40 111 = (20, 111) := by
  simp only [stepInstr]
  rw [show S3.getD (S3.length - 1) 0 = 62 from by rw [S3_length]; exact S3_getD_130]
  rw [if_neg (by norm_num : ¬ (62 : ℝ) < 10)]
  rw [trend_S3, if_pos (rfl : (0 : ℤ) = 0)]
  rw [show pyInt (((40 : ℤ) : ℝ) * 0.5) = 20 from by
    rw [pyInt, if_pos (by norm_num), show ((40 : ℤ) : ℝ) * 0.5 = 20 from by norm_num]
    norm_num]

/-- Claim C1, counterexample: starting from the process-start state, a
first call on `M1` (111 days) opens a position of 40 at price 99; a
second call on `M2` (100 more days at price 520) finds a neutral trend,
halves the position to 20 without clipping, and 20 exceeds that day's
position limit `int(10000 / 520) = 19`. -/
theorem C1_counterexample :
    posLimit ((M2.getD 0 []).getD ((M2.getD 0 []).length - 1) 0) <
      |(getMyPosition (getMyPosition initState M1).1 M2).2.getD 0 0| := by
  have hrow : M2.getD 0 [] = S2 := M2_getD (by norm_num)
  have hlim : posLimit (S2.getD (S2.length - 1) 0) = 19 := by
    rw [show S2.getD (S2.length - 1) 0 = 520 from by rw [S2_length]; exact S2_getD_210]
    rw [posLimit, show max (520 : ℝ) 10 = 520 from max_eq_left (by norm_num), pyInt,
      if_pos (by positivity)]
    rw [Int.floor_eq_iff] <;> norm_num
  have hout : (getMyPosition (getMyPosition initState M1).1 M2).2.getD 0 0 = 20 := by
    set st1 := (getMyPosition initState M1).1 with hst1
    have hnt : ¬ ntOf M2 < 110 := by rw [ntOf_M2]; norm_num
    have h1 : (getMyPosition st1 M2).2 = (List.range M2.length).map (fun j =>
        (stepInstr (M2.getD j []) (ntOf M2) (st1.currentPos.getD j 0)
          (st1.position_entry_day j)).1) := by
      simp [getMyPosition, hnt]
    have hcur : st1.currentPos.getD 0 0 = 40 := by
      rw [hst1, call1_pos]
      exact getD_replicate_of_lt _ _ (by norm_num)
    have hent : st1.position_entry_day 0 = 111 := by
      rw [hst1]
      exact call1_entry
    rw [h1, getD_map_range, if_pos (show (0 : ℕ) < M2.length from by simp [M2]),
      hrow, ntOf_M2, hcur, hent, step_S2]
  rw [hrow, hlim, hout]
  norm_num

/-- Claim C3, counterexample: the position of 40 opened on day 111 (call
on `M1`) is still open with size 20 — and its entry day still recorded —
after the call on `M3` (day 131, i.e. 20 ≥ 5 days after entry), because
the neutral-trend decay path bypasses the holding-period force-close. -/
theorem C3_counterexample :
    (getMyPosition initState M1).1.position_entry_day 0 = 111 ∧
      ntOf M3 = 131 ∧
      (getMyPosition (getMyPosition initState M1).1 M3).2.getD 0 0 = 20 ∧
      (getMyPosition (getMyPosition initState M1).1 M3).1.position_entry_day 0 = 111 := by
  refine ⟨call1_entry, ntOf_M3, ?_, ?_⟩
  · set st1 := (getMyPosition initState M1).1 with hst1
    have hnt : ¬ ntOf M3 < 110 := by rw [ntOf_M3]; norm_num
    have h1 : (getMyPosition st1 M3).2 = (List.range M3.length).map (fun j =>
        (stepInstr (M3.getD j []) (ntOf M3) (st1.currentPos.getD j 0)
          (st1.position_entry_day j)).1) := by
      simp [getMyPosition, hnt]
    have hcur : st1.currentPos.getD 0 0 = 40 := by
      rw [hst1, call1_pos]
      exact getD_replicate_of_lt _ _ (by norm_num)
    have hent : st1.position_entry_day 0 = 111 := by
      rw [hst1]
      exact call1_entry
    rw [h1, getD_map_range, if_pos (show (0 : ℕ) < M3.length from by simp [M3]),
      M3_getD (by norm_num), ntOf_M3, hcur, hent, step_S3]
  · set st1 := (getMyPosition initState M1).1 with hst1
    have hnt : ¬ ntOf M3 < 110 := by rw [ntOf_M3]; norm_num
    have h1 : (getMyPosition st1 M3).1.position_entry_day 0 =
        (stepInstr (M3.getD 0 []) (ntOf M3) (st1.currentPos.getD 0 0)
          (st1.position_entry_day 0)).2 := by
      simp [getMyPosition, hnt, show (0 : ℕ) < M3.length from by simp [M3]]
    have hcur : st1.currentPos.getD 0 0 = 40 := by
      rw [hst1, call1_pos]
      exact getD_replicate_of_lt _ _ (by norm_num)
    have hent : st1.position_entry_day 0 = 111 := by
      rw [hst1]
      exact call1_entry
    rw [h1, M3_getD (by norm_num), ntOf_M3, hcur, hent, step_S3]

/-- State used to witness the amended holding-period theorem: a position
of 40 in every instrument, entered on day 50. -/
def stW : TraderState := ⟨List.replicate 50 40, fun _ => 50, 0⟩

/-- Claim C3, witness for the amended theorem: on the 111-day history
`M1` (price 99, uptrend, low volatility) a position entered on day 50 is
force-closed and its entry day cleared. -/
theorem C3_witness :
    (0 : ℤ) ≤ stW.position_entry_day 0 ∧
      (5 : ℤ) ≤ (ntOf M1 : ℤ) - stW.position_entry_day 0 ∧
      (getMyPosition stW M1).2.getD 0 0 = 0 ∧
      (getMyPosition stW M1).1.position_entry_day 0 = -1 := by
  have h := C3_forced_exit_on_check_path stW M1 0
    (by simp [M1])
    (by rw [ntOf_M1]; norm_num)
    (by
      rw [M1_getD (by norm_num),
        show S1.getD (S1.length - 1) 0 = 99 from by rw [S1_length]; exact S1_getD_110]
      norm_num)
    (by rw [M1_getD (by norm_num), trend_S1]; decide)
    (by rw [M1_getD (by norm_num), ntOf_M1]; exact not_lt.mpr vol_S1_le)
    (by norm_num [stW])
    (by rw [ntOf_M1]; norm_num [stW])
  exact ⟨by norm_num [stW], by rw [ntOf_M1]; norm_num [stW], h.1, h.2⟩

/- ------------------------------------------------------------------ -/
/- The cross-call invariant on `currentPos`.                           -/
/- ------------------------------------------------------------------ -/

lemma foldl_calls_early (ms : List (List (List ℝ))) (st : TraderState)
    (h : ∀ m ∈ ms, ntOf m < 110) :
    (ms.foldl (fun s m => (getMyPosition s m).1) st).currentPos = st.currentPos := by
  induction ms generalizing st with
  | nil => rfl
  | cons m rest ih =>
      rw [List.foldl_cons, ih _ (fun x hx => h x (List.mem_cons_of_mem _ hx))]
      simp [getMyPosition, h m (List.mem_cons_self _ _)]

/-- Claim C4: along any sequence of calls obeying the caller contract
(fixed 50-instrument universe, histories never shrinking), after every
call — early-return calls included — `currentPos` equals exactly the
vector that call returned. -/
theorem C4_currentPos_tracks_output
    (ms : List (List (List ℝ)))
    (h50 : ∀ m ∈ ms, m.length = 50)
    (hmono : ms.Pairwise (fun a b => ntOf a ≤ ntOf b))
    (k : ℕ) (hk : k < ms.length) :
    (runPrefix (ms.take (k + 1))).currentPos =
      (getMyPosition (runPrefix (ms.take k)) (ms.get ⟨k, hk⟩)).2 := by
  have hsplit : runPrefix (ms.take (k + 1)) =
      (getMyPosition (runPrefix (ms.take k)) (ms.get ⟨k, hk⟩)).1 := by
    rw [runPrefix, runPrefix, List.take_succ, List.getElem?_eq_getElem hk]
    rw [List.foldl_append]
    rfl
  rw [hsplit]
  have hmem_ms : ms.get ⟨k, hk⟩ ∈ ms := List.get_mem ms k hk
  have hmemdrop : ms.get ⟨k, hk⟩ ∈ ms.drop k := by
    rw [List.drop_eq_getElem_cons hk, List.get_eq_getElem]
    exact List.mem_cons_self _ _
  set m := ms.get ⟨k, hk⟩ with hm
  by_cases hnt : ntOf m < 110
  · have hcp : (getMyPosition (runPrefix (ms.take k)) m).1.currentPos =
        (runPrefix (ms.take k)).currentPos := by
      simp [getMyPosition, hnt]
    have hout : (getMyPosition (runPrefix (ms.take k)) m).2 =
        List.replicate m.length 0 := by
      simp [getMyPosition, hnt]
    have hall : ∀ x ∈ ms.take k, ntOf x < 110 := by
      have hms : ms.take k ++ ms.drop k = ms := List.take_append_drop k ms
      have hpw := hmono
      rw [← hms] at hpw
      obtain ⟨-, -, hcross⟩ := List.pairwise_append.mp hpw
      intro x hx
      exact lt_of_le_of_lt (hcross x hx _ hmemdrop) hnt
    rw [hcp, hout, h50 _ hmem_ms, runPrefix, foldl_calls_early _ _ hall]
    rfl
  · simp [getMyPosition, hnt]

/-- Claim C4, witness: a single early-return call from the start state. -/
theorem C4_witness :
    (∀ m ∈ [List.replicate 50 [(1 : ℝ)]], m.length = 50) ∧
      (runPrefix ([List.replicate 50 [(1 : ℝ)]].take 1)).currentPos =
        (getMyPosition (runPrefix ([List.replicate 50 [(1 : ℝ)]].take 0))
          (([List.replicate 50 [(1 : ℝ)]]).get ⟨0, by norm_num⟩)).2 :=
  ⟨by simp, C4_currentPos_tracks_output _ (by simp) (List.pairwise_singleton _ _) 0
    (by norm_num)⟩

/- Concrete 21-day series used to separate log returns from simple
returns: twenty days at price 1 followed by one day at price 2. -/

lemma row21_cons :
    List.replicate 20 (1 : ℝ) ++ [2] = 1 :: (List.replicate 19 (1 : ℝ) ++ [2]) := by
  rw [show List.replicate 20 (1 : ℝ) = 1 :: List.replicate 19 1 from rfl]
  rfl

lemma row21_slice20 :
    lastSlice (List.replicate 20 (1 : ℝ) ++ [2]) 20 = List.replicate 19 (1 : ℝ) ++ [2] := by
  rw [lastSlice]
  have hl : (List.replicate 20 (1 : ℝ) ++ [2]).length = 21 := by simp
  rw [hl, row21_cons]
  rfl

lemma row21_slice21 :
    lastSlice (List.replicate 20 (1 : ℝ) ++ [2]) 21 = List.replicate 20 (1 : ℝ) ++ [2] := by
  rw [lastSlice]
  have hl : (List.replicate 20 (1 : ℝ) ++ [2]).length = 21 := by simp
  rw [hl]
  rfl

lemma row21_dropLast :
    (List.replicate 20 (1 : ℝ) ++ [2]).dropLast = List.replicate 20 (1 : ℝ) :=
  List.dropLast_concat

lemma zip_on_row21 (f : ℝ → ℝ → ℝ) :
    List.zipWith f (List.replicate 19 (1 : ℝ) ++ [2]) (List.replicate 20 (1 : ℝ)) =
      List.replicate 19 (f 1 1) ++ [f 2 1] := by
  have h20 : List.replicate 20 (1 : ℝ) = List.replicate 19 1 ++ [1] := by
    rw [show (20 : ℕ) = 19 + 1 from rfl, List.replicate_succ']
  rw [h20, List.zipWith_append _ _ _ _ _ (by simp), zipWith_replicate_both]
  rfl

lemma logReturns_row21 :
    logReturns (List.replicate 20 (1 : ℝ) ++ [2]) =
      List.replicate 19 0 ++ [Real.log 2] := by
  rw [logReturns, row21_slice20, row21_slice21, row21_dropLast, zip_on_row21]
  simp [Real.log_one]

lemma simpleReturns_row21 :
    simpleReturns (List.replicate 20 (1 : ℝ) ++ [2]) =
      List.replicate 19 0 ++ [1] := by
  rw [simpleReturns, row21_slice20, row21_slice21, row21_dropLast, zip_on_row21]
  norm_num

/-- Claim C7, amended: the volatility estimate equals the fixed fallback
0.02 exactly when the history is shorter than `LOOKBACK_DAYS + 1 = 21`
days; otherwise it equals the population (`np.std`) standard deviation of
the *log* returns over the most recent 20 observations. -/
theorem C7_volatility_characterization (nt : ℕ) (row : List ℝ) :
    (nt < 21 → volatilityOf nt row = 0.02) ∧
    (21 ≤ nt → volatilityOf nt row =
      Real.sqrt ((((logReturns row).map
          (fun x => (x - (logReturns row).sum / (logReturns row).length) ^ 2)).sum) /
        (logReturns row).length)) := by
  constructor
  · intro h
    rw [volatilityOf, if_neg (by omega)]
  · intro h
    rw [volatilityOf, if_pos h, npStd, npMean, npMean, List.length_map]

/-- Claim C7, witness: with only 5 days of history the fallback 0.02 is
returned. -/
theorem C7_witness : (5 : ℕ) < 21 ∧ volatilityOf 5 [] = 0.02 :=
  ⟨by norm_num, (C7_volatility_characterization 5 []).1 (by norm_num)⟩

/-- Claim C7, counterexample: on the 21-day series with twenty days at
price 1 and a final day at price 2 the code's volatility (std of log
returns) differs from the claimed standard deviation of simple returns. -/
theorem C7_counterexample :
    volatilityOf 21 (List.replicate 20 (1 : ℝ) ++ [2]) ≠
      specVolatilitySimple 21 (List.replicate 20 (1 : ℝ) ++ [2]) := by
  rw [volatilityOf, if_pos (le_refl 21), specVolatilitySimple, if_pos (le_refl 21)]
  rw [logReturns_row21, simpleReturns_row21,
    npStd_replicate_zero_concat, npStd_replicate_zero_concat]
  have hl2 : 0 < Real.log 2 := Real.log_pos (by norm_num)
  have hl2' : Real.log 2 < 1 := by
    have h := Real.log_lt_sub_one_of_pos (by norm_num : (0 : ℝ) < 2)
      (by norm_num : (2 : ℝ) ≠ 1)
    linarith
  apply ne_of_lt
  apply Real.sqrt_lt_sqrt (by positivity)
  nlinarith

/-- Claim C10: whenever the per-instrument loop can execute at all
(history of at least `TREND_LOOKBACK + 10 = 110` days, which is the
guard of the early return), the volatility computation takes the
log-return branch, never the 0.02 fallback: `110 ≥ LOOKBACK_DAYS + 1 = 21`. -/
theorem C10_volatility_fallback_unreachable (prc : List (List ℝ)) (i : ℕ)
    (h : ¬ ntOf prc < 110) :
    volatilityOf (ntOf prc) (prc.getD i []) = npStd (logReturns (prc.getD i [])) := by
  rw [volatilityOf, if_pos (by omega)]

/-- Claim C10, witness: a 120-day single-instrument matrix. -/
theorem C10_witness :
    ¬ ntOf [List.replicate 120 (1 : ℝ)] < 110 ∧
      volatilityOf (ntOf [List.replicate 120 (1 : ℝ)])
          (([List.replicate 120 (1 : ℝ)] : List (List ℝ)).getD 0 []) =
        npStd (logReturns (([List.replicate 120 (1 : ℝ)] : List (List ℝ)).getD 0 [])) :=
  ⟨by simp [ntOf], C10_volatility_fallback_unreachable _ 0 (by simp [ntOf])⟩

end
